import Mathlib

/-!
Shallow embedding of the B+ tree implementation in `src/b+tree.c`
(repository dpreed/bplus_tree), together with theorems settling the
claims of the specification against it.

Modelling conventions:

* A block (`struct block`, one 4096-byte page = 512 64-bit words) is a
  total function `words : Nat → Nat`.  Keys, values and block pointers
  all occupy `union word` slots in the C code, so a single `Nat` carries
  any of them; a block pointer is the block's allocation id, with `0`
  playing the role of `NULL`.  Freshly mapped pages are zero-filled
  (`MAP_ANONYMOUS`), hence `zeroBlock`.
* The header word stores the key count in its low byte
  (`unsigned char num_keys`); the remaining bytes are zero throughout,
  because blocks start zeroed and only the count byte is ever written.
  Header writes therefore store `n % 256`.
* The heap is a function from block ids to blocks.  `freeBlock` only
  records the freed id in a log: the C `munmap` does not erase the
  caller-visible pointer graph, and reads through stale pointers (which
  the source performs) are modelled as reading the last contents.
* Memory allocation (both `mmap` for blocks and `malloc` for the path
  array, cursors, and the handle) can fail.  An oracle `Nat → Bool`
  says whether the n-th allocation attempt of a run succeeds; failure is
  modelled as the NULL return that the source's checks test for.
* C `unsigned` arithmetic: the source only ever subtracts smaller from
  larger unsigned values on the paths exercised here, so `Nat`
  subtraction coincides with it; counts such as `nk - i` are written
  exactly as in the source.
* Functions whose C counterpart can dereference NULL (`next_record`
  after the end of the tree, `free_cursor` on a cursor whose tree is
  gone, descending with a NULL path array) return `Option`, with `none`
  marking the crash.
-/

namespace BPlus

/-- Error results of the library (`enum bplus_error`). -/
inductive Err where
  | OK
  | NOTFOUND
  | NOMEM
deriving DecidableEq, Repr

/-- Fan-out bound: max children of an index node (`ORDER`). -/
def ORDER : Nat := 256

/-- Left half size after a split (`LHALF`). -/
def LHALF : Nat := ORDER / 2

/-- Right half size after a split (`RHALF`). -/
def RHALF : Nat := ORDER / 2

/-- Word index of the header (`HEADER`). -/
def HEADER : Nat := 0

/-- Word index of the first key (`KEY_0`). -/
def KEY_0 : Nat := 1

/-- Word index of the first field, i.e. child pointer or value (`FIELD_0`). -/
def FIELD_0 : Nat := 256

/-- Word index of a leaf's successor pointer (`NEXT`). -/
def NEXT : Nat := 2 * 256 - 1

/-- One page-sized node block: 512 words, each holding a key, a value,
a block pointer or the header (`struct block` over `union word`). -/
structure Block where
  words : Nat → Nat

/-- A freshly mapped, zero-filled page. -/
def zeroBlock : Block := ⟨fun _ => 0⟩

/-- Store one word of a block. -/
def Block.write (b : Block) (i v : Nat) : Block :=
  ⟨fun j => if j = i then v else b.words j⟩

/-- Copy `n` words from `s` starting at `sOff` into `d` starting at
`dOff`.  Reads come from `s` as given, so using the same block for both
arguments yields exactly the `memmove` semantics of `wrdmove` (and the
non-overlapping `wrdcpy`). -/
def Block.copyWords (d : Block) (dOff : Nat) (s : Block) (sOff n : Nat) : Block :=
  ⟨fun j => if dOff ≤ j ∧ j < dOff + n then s.words (sOff + (j - dOff)) else d.words j⟩

/-- One record of the descent path (`struct path_node`).  `split` is the
preallocated sibling block for this level; it is left stale by descents
and only (re)written by the preallocation pass. -/
structure PathNode where
  node : Nat
  num_keys : Nat
  pos : Nat
  split : Nat
deriving Repr

/-- Garbage contents of a freshly malloc'd path entry (modelled as zeros). -/
def PathNode.blank : PathNode := ⟨0, 0, 0, 0⟩

/-- A live cursor (`struct bplus_cursor`).  `tree` is the back pointer to
the owning tree handle, modelled as `1` while the tree is alive and `0`
(NULL) after the tree has been destroyed.  The registry linked list is
modelled by the order of `BTState.cursor_list`. -/
structure Cursor where
  tree : Nat
  leaf : Nat
  pos : Nat
  invalid : Bool
deriving DecidableEq, Repr

/-- The tree handle (`struct bplus`) together with the block heap and the
allocator bookkeeping of the current run.  `allocLog`/`freeLog` record
the block ids handed out and released (most recent first), so that
claims about blocks being freed again can be stated.  `pathNull` is true
when `b->path == NULL`. -/
structure BTState where
  mem : Nat → Block
  nextId : Nat
  allocCount : Nat
  allocLog : List Nat
  freeLog : List Nat
  root : Nat
  leaves : Nat
  depth : Nat
  cursor_list : List Cursor
  num_recs : Nat
  num_blks : Nat
  num_crsrs : Nat
  path_length : Nat
  path : Nat → PathNode
  pathNull : Bool
  new_root : Nat

/-- Replace the block stored at id `b`. -/
def setBlk (s : BTState) (b : Nat) (blk : Block) : BTState :=
  { s with mem := fun j => if j = b then blk else s.mem j }

/-- Store one word of the block at id `b`. -/
def setWord (s : BTState) (b i v : Nat) : BTState :=
  setBlk s b ((s.mem b).write i v)

/-- Read accessor `num_keys`: the low byte of the header word. -/
def num_keys (s : BTState) (b : Nat) : Nat :=
  (s.mem b).words HEADER % 256

/-- Write the header key count (low byte of the header word). -/
def set_num_keys (s : BTState) (b n : Nat) : BTState :=
  setBlk s b ((s.mem b).write HEADER (n % 256))

/-- Read accessor `get_key`. -/
def get_key (s : BTState) (b i : Nat) : Nat :=
  (s.mem b).words (KEY_0 + i)

/-- Read accessor `get_child`. -/
def get_child (s : BTState) (b i : Nat) : Nat :=
  (s.mem b).words (FIELD_0 + i)

/-- Read accessor `get_value` (leaves store values in the field slots). -/
def get_value (s : BTState) (b i : Nat) : Nat :=
  (s.mem b).words (FIELD_0 + i)

/-- Write accessor `set_value`. -/
def set_value (s : BTState) (b i v : Nat) : BTState :=
  setWord s b (FIELD_0 + i) v

/-- Read accessor `next_leaf`. -/
def next_leaf (s : BTState) (b : Nat) : Nat :=
  (s.mem b).words NEXT

/-- Write accessor `set_next_leaf`. -/
def set_next_leaf (s : BTState) (leaf nxt : Nat) : BTState :=
  setWord s leaf NEXT nxt

/-- The loop of `scan_leaf_keys`: `for (i = 0; i < nk && k > get_key(b, i); i++)`,
as recursion on the remaining iterations `nk - i`. -/
def scanLeafFrom (s : BTState) (b k : Nat) : Nat → Nat → Nat
  | i, 0 => i
  | i, fuel + 1 => if k > get_key s b i then scanLeafFrom s b k (i + 1) fuel else i

/-- Index of the first key in a leaf that is `≥ k`, else the key count
(`scan_leaf_keys`). -/
def scan_leaf_keys (s : BTState) (b k : Nat) : Nat :=
  scanLeafFrom s b k 0 (num_keys s b)

/-- The loop of `scan_index_keys`: `for (i = 0; i < nk && k >= get_key(b, i); i++)`. -/
def scanIndexFrom (s : BTState) (b k : Nat) : Nat → Nat → Nat
  | i, 0 => i
  | i, fuel + 1 => if k ≥ get_key s b i then scanIndexFrom s b k (i + 1) fuel else i

/-- Index of the first key in an index node that is `> k`, else the key
count (`scan_index_keys`). -/
def scan_index_keys (s : BTState) (b k : Nat) : Nat :=
  scanIndexFrom s b k 0 (num_keys s b)

/-- One memory allocation attempt: a fresh zeroed block on success
(`mmap` in `alloc_page_for_block`), or NULL on failure as tested by the
callers.  Every attempt consumes one oracle slot. -/
def allocBlock (oracle : Nat → Bool) (s : BTState) : Option Nat × BTState :=
  if oracle s.allocCount then
    let id := s.nextId
    (some id,
      { s with
        mem := fun j => if j = id then zeroBlock else s.mem j
        nextId := id + 1
        allocCount := s.allocCount + 1
        allocLog := id :: s.allocLog })
  else (none, { s with allocCount := s.allocCount + 1 })

/-- Release a block (`free_index_block` / `free_leaf_block`, i.e.
`munmap`): only the free log changes; stale reads keep seeing the last
contents. -/
def freeBlock (s : BTState) (b : Nat) : BTState :=
  { s with freeLog := b :: s.freeLog }

/-- Create a cursor and thread it onto the head of the tree's cursor list
(`make_bplus_cursor`); `none` when the `malloc` fails. -/
def make_bplus_cursor (oracle : Nat → Bool) (s : BTState) (leaf pos : Nat) :
    Option Cursor × BTState :=
  if oracle s.allocCount then
    let c : Cursor := ⟨1, leaf, pos, false⟩
    (some c,
      { s with
        allocCount := s.allocCount + 1
        num_crsrs := s.num_crsrs + 1
        cursor_list := c :: s.cursor_list })
  else (none, { s with allocCount := s.allocCount + 1 })

/-- Create a new tree (`new_bplus_tree`): a handle whose root is a fresh
empty leaf.  The handle `malloc` and the root-leaf allocation each
consume an oracle slot; `none` models the NULL returns. -/
def new_bplus_tree (oracle : Nat → Bool) : Option BTState :=
  if oracle 0 then
    if oracle 1 then
      let rootBlk := (zeroBlock.write HEADER (0 % 256)).write NEXT 0
      some
        { mem := fun j => if j = 1 then rootBlk else zeroBlock
          nextId := 2
          allocCount := 2
          allocLog := [1]
          freeLog := []
          root := 1
          leaves := 1
          depth := 0
          cursor_list := []
          num_recs := 0
          num_blks := 1
          num_crsrs := 0
          path_length := 0
          path := fun _ => PathNode.blank
          pathNull := true
          new_root := 0 }
    else none
  else none

/-- Grow the scratch path array to the current depth (`path_reserved`).
On failure the old array has already been freed and replaced by NULL,
with `path_length` already updated — exactly the source's order. -/
def path_reserved (oracle : Nat → Bool) (s : BTState) : Err × BTState :=
  if s.path_length < s.depth then
    let s1 := { s with path_length := s.depth }
    if oracle s1.allocCount then
      (Err.OK,
        { s1 with
          allocCount := s1.allocCount + 1
          path := fun _ => PathNode.blank
          pathNull := false })
    else (Err.NOMEM, { s1 with allocCount := s1.allocCount + 1, pathNull := true })
  else (Err.OK, s)

/-- The descent loop of `find_leaf`: for each internal level record a
path frame (node, scan position, key count — the stale `split` is kept)
and step to the chosen child.  Recursion is on the remaining levels. -/
def findLeafGo (k : Nat) : BTState → Nat → Nat → Nat → Nat × BTState
  | s, node, _, 0 => (node, s)
  | s, node, d, rem + 1 =>
    let i := scan_index_keys s node k
    let nk := num_keys s node
    let s1 := { s with
      path := fun j => if j = d then ⟨node, nk, i, (s.path d).split⟩ else s.path j }
    findLeafGo k s1 (get_child s1 node i) (d + 1) rem

/-- Find the leaf which should contain `k`, recording the path
(`find_leaf`).  Writing path frames through a NULL path array (possible
only after a failed `path_reserved`) is the modelled crash. -/
def find_leaf (s : BTState) (k : Nat) : Option (Nat × BTState) :=
  if s.depth ≠ 0 ∧ s.pathNull then none
  else some (findLeafGo k s s.root 0 s.depth)

/-- Point lookup (`find`).  Mirrors the source exactly: after the leaf
scan the key slot at the scan index is compared with `k` without first
checking that the index is below the leaf's key count. -/
def find (oracle : Nat → Bool) (s : BTState) (k : Nat) :
    Option (Err × Option Nat × BTState) :=
  if s.root ≠ 0 then
    match path_reserved oracle s with
    | (Err.OK, s1) =>
      match find_leaf s1 k with
      | none => none
      | some (leaf, s2) =>
        let i := scan_leaf_keys s2 leaf k
        if k = get_key s2 leaf i then some (Err.OK, some (get_value s2 leaf i), s2)
        else some (Err.NOTFOUND, none, s2)
    | (e, s1) => some (e, none, s1)
  else some (Err.NOTFOUND, none, s)

/-- Insert a record into a non-full leaf at position `i`
(`insert_into_leaf`), shifting the suffix right and bumping the
positions of cursors on this leaf at or after `i`. -/
def insert_into_leaf (s : BTState) (leaf i k v : Nat) : BTState :=
  let nk := num_keys s leaf
  let blk := s.mem leaf
  let blk :=
    if nk - i ≠ 0 then
      let blk1 := blk.copyWords (KEY_0 + i + 1) blk (KEY_0 + i) (nk - i)
      blk1.copyWords (FIELD_0 + i + 1) blk1 (FIELD_0 + i) (nk - i)
    else blk
  let blk := ((blk.write (KEY_0 + i) k).write (FIELD_0 + i) v).write HEADER ((nk + 1) % 256)
  let s1 := setBlk s leaf blk
  { s1 with
    cursor_list := s1.cursor_list.map fun bc =>
      if bc.leaf = leaf ∧ bc.pos ≥ i then { bc with pos := bc.pos + 1 } else bc }

/-- Insert a splitting key and its new right child into an index node at
position `i` (`insert_split_into_index`). -/
def insert_split_into_index (s : BTState) (node i key child : Nat) : BTState :=
  let nk := num_keys s node
  let blk := s.mem node
  let blk :=
    if nk - i ≠ 0 then
      let blk1 := blk.copyWords (KEY_0 + i + 1) blk (KEY_0 + i) (nk - i)
      blk1.copyWords (FIELD_0 + i + 2) blk1 (FIELD_0 + i + 1) (nk - i)
    else blk
  let blk := ((blk.write (KEY_0 + i) key).write (FIELD_0 + i + 1) child).write HEADER ((nk + 1) % 256)
  setBlk s node blk

/-- The child-copy loop of `split_index` (the compiled `CAREFUL`
version): `for (unsigned i = ORDER; i-- > 0;)` walking source position
`i` downward, writing into `dnode` (the new peer until `j` wraps, then
the parent) at position `j`, inserting the new child just before source
position `pos + 1`.  `fuel` is `i + 1`; `dnp` says whether `dnode` is
currently the parent. -/
def splitIndexChildLoop (parent newp pos newc : Nat) :
    BTState → Bool → Nat → Nat → BTState
  | s, _, _, 0 => s
  | s, dnp, j, fuel + 1 =>
    let i := fuel
    if i < pos ∧ i < LHALF + 1 then s
    else
      let s1 := setWord s (if dnp then parent else newp) (FIELD_0 + j)
        ((s.mem parent).words (FIELD_0 + i))
      let dnp1 := if j = 0 then true else dnp
      let j1 := if j = 0 then LHALF else j - 1
      if i = pos + 1 then
        let s2 := setWord s1 (if dnp1 then parent else newp) (FIELD_0 + j1) newc
        let dnp2 := if j1 = 0 then true else dnp1
        let j2 := if j1 = 0 then LHALF else j1 - 1
        splitIndexChildLoop parent newp pos newc s2 dnp2 j2 fuel
      else splitIndexChildLoop parent newp pos newc s1 dnp1 j1 fuel

/-- The key-copy loop of `split_index` (the compiled `CAREFUL` version):
`for (unsigned i = ORDER - 1; i-- > 0;)`, inserting the new key just
before source position `pos`. -/
def splitIndexKeyLoop (parent newp pos kIns : Nat) :
    BTState → Bool → Nat → Nat → BTState
  | s, _, _, 0 => s
  | s, dnp, j, fuel + 1 =>
    let i := fuel
    if i < pos ∧ i < LHALF then s
    else
      let s1 := setWord s (if dnp then parent else newp) (KEY_0 + j)
        ((s.mem parent).words (KEY_0 + i))
      let dnp1 := if j = 0 then true else dnp
      let j1 := if j = 0 then LHALF else j - 1
      if i = pos then
        let s2 := setWord s1 (if dnp1 then parent else newp) (KEY_0 + j1) kIns
        let dnp2 := if j1 = 0 then true else dnp1
        let j2 := if j1 = 0 then LHALF else j1 - 1
        splitIndexKeyLoop parent newp pos kIns s2 dnp2 j2 fuel
      else splitIndexKeyLoop parent newp pos kIns s1 dnp1 j1 fuel

/-- Split a full index node `parent` into `parent` and the preallocated
peer `newp`, inserting key `k` at overall position `pos` with new child
`newc` just after it (`split_index`, `CAREFUL` version).  Returns the
new peer, the promoted key (read from the stale slot `KEY_0 + LHALF`
left behind in the parent), and the new state. -/
def split_index (s : BTState) (parent newp pos k newc : Nat) : Nat × Nat × BTState :=
  let s1 := set_num_keys s parent LHALF
  let s2 := set_num_keys s1 newp (RHALF - 1)
  let s3 := if pos = ORDER - 1 then setWord s2 newp (FIELD_0 + RHALF - 1) newc else s2
  let jc := if pos = ORDER - 1 then RHALF - 2 else RHALF - 1
  let s4 := splitIndexChildLoop parent newp pos newc s3 false jc ORDER
  let s5 := if pos = ORDER - 1 then setWord s4 newp (KEY_0 + RHALF - 2) k else s4
  let jk := if pos = ORDER - 1 then RHALF - 3 else RHALF - 2
  let s6 := splitIndexKeyLoop parent newp pos k s5 false jk (ORDER - 1)
  (newp, (s6.mem parent).words (KEY_0 + LHALF), s6)

/-- Split a full leaf into `leaf` and the preallocated `newb`, inserting
`(k, v)` at overall position `i` (`split_leaf`).  The new leaf is linked
into the leaf chain; the promoted key is the new leaf's first key.
Cursors on the split leaf have their position bumped past `i` and then
reduced by `LHALF` when at or past `LHALF` — without the leaf pointer
being redirected, exactly as in the source. -/
def split_leaf (s : BTState) (leaf newb i k v : Nat) : Nat × Nat × BTState :=
  let s1 := set_num_keys s leaf LHALF
  let s2 := set_num_keys s1 newb RHALF
  let s3 := set_next_leaf s2 newb (next_leaf s2 leaf)
  let s4 := set_next_leaf s3 leaf newb
  let s5 :=
    if i < LHALF then
      let sA := setBlk s4 newb ((s4.mem newb).copyWords KEY_0 (s4.mem leaf) (KEY_0 + LHALF - 1) RHALF)
      let sB := setBlk sA newb ((sA.mem newb).copyWords FIELD_0 (sA.mem leaf) (FIELD_0 + LHALF - 1) RHALF)
      let sC :=
        if LHALF - 1 - i ≠ 0 then
          let sX := setBlk sB leaf ((sB.mem leaf).copyWords (KEY_0 + i + 1) (sB.mem leaf) (KEY_0 + i) (LHALF - 1 - i))
          setBlk sX leaf ((sX.mem leaf).copyWords (FIELD_0 + i + 1) (sX.mem leaf) (FIELD_0 + i) (LHALF - 1 - i))
        else sB
      setWord (setWord sC leaf (KEY_0 + i) k) leaf (FIELD_0 + i) v
    else
      let sA :=
        if i > LHALF then
          let sX := setBlk s4 newb ((s4.mem newb).copyWords KEY_0 (s4.mem leaf) (KEY_0 + LHALF) (i - LHALF))
          setBlk sX newb ((sX.mem newb).copyWords FIELD_0 (sX.mem leaf) (FIELD_0 + LHALF) (i - LHALF))
        else s4
      let sB := setWord (setWord sA newb (KEY_0 + i - LHALF) k) newb (FIELD_0 + i - LHALF) v
      if ORDER - 1 - i ≠ 0 then
        let sX := setBlk sB newb ((sB.mem newb).copyWords (KEY_0 + i + 1 - LHALF) (sB.mem leaf) (KEY_0 + i) (ORDER - 1 - i))
        setBlk sX newb ((sX.mem newb).copyWords (FIELD_0 + i + 1 - LHALF) (sX.mem leaf) (FIELD_0 + i) (ORDER - 1 - i))
      else sB
  let kOut := get_key s5 newb 0
  let s6 := { s5 with
    cursor_list := s5.cursor_list.map fun bc =>
      if bc.leaf = leaf then
        let p1 := if bc.pos ≥ i then bc.pos + 1 else bc.pos
        { bc with pos := if p1 ≥ LHALF then p1 - LHALF else p1 }
      else bc }
  (newb, kOut, s6)

/-- Install the preallocated replacement root above the old root
(`add_root_block`). -/
def add_root_block (s : BTState) (left_child k right_child : Nat) : BTState :=
  let nw := s.new_root
  let s1 := set_num_keys s nw 1
  let s2 := setWord s1 nw KEY_0 k
  let s3 := setWord s2 nw FIELD_0 left_child
  let s4 := setWord s3 nw (FIELD_0 + 1) right_child
  { s4 with root := nw, depth := s4.depth + 1 }

/-- Propagation loop of `insert_new_leaf`: walk the recorded path from
the deepest ancestor upward, inserting the promoted key, splitting full
ancestors with their preallocated peers; past the root install the
replacement root. -/
def insertNewLeafGo : BTState → Nat → Nat → Nat → BTState
  | s, newb, k, 0 => add_root_block s s.root k newb
  | s, newb, k, d + 1 =>
    let parent := (s.path d).node
    let i := (s.path d).pos
    if num_keys s parent < ORDER - 1 then insert_split_into_index s parent i k newb
    else
      let r := split_index s parent ((s.path d).split) i k newb
      insertNewLeafGo r.2.2 r.1 r.2.1 d

/-- Insert a freshly split-off leaf into the parent chain
(`insert_new_leaf`). -/
def insert_new_leaf (s : BTState) (newb k : Nat) : BTState :=
  insertNewLeafGo s newb k s.depth

/-- Free `path[d].split` for levels `d` up to `depth - 1` (the loop of
`free_preallocated_splits`); recursion is on the number of remaining
levels. -/
def freeSplitRange : BTState → Nat → Nat → BTState
  | s, _, 0 => s
  | s, d, rem + 1 => freeSplitRange (freeBlock s ((s.path d).split)) (d + 1) rem

/-- Undo preallocations if incomplete (`free_preallocated_splits`).
Note that the range `d .. depth - 1` is freed regardless of which of
those slots were actually written in the current pass. -/
def free_preallocated_splits (s : BTState) (d : Nat) : BTState :=
  let s1 := if d = 0 ∧ s.new_root ≠ 0 then freeBlock s s.new_root else s
  freeSplitRange s1 d (s1.depth - d)

/-- The walk-up loop of `preallocate_splits`:
`for (d = b->depth; d != 0 && b->path[--d].num_keys == ORDER - 1;)`.
The decrement happens in the condition, so on a normal exit `d` is the
first non-full level.  The allocation result is stored into
`path[d].split` before it is tested, so a failed attempt leaves NULL in
the slot.  Returns `(d, n_allocs)` on exit, or `none` (with the partial
allocations freed) when an allocation fails. -/
def preallocGo (oracle : Nat → Bool) : BTState → Nat → Nat → Option (Nat × Nat) × BTState
  | s, 0, n => (some (0, n), s)
  | s, d + 1, n =>
    if (s.path d).num_keys = ORDER - 1 then
      match allocBlock oracle s with
      | (some id, s1) =>
        preallocGo oracle
          { s1 with path := fun j => if j = d then { s1.path d with split := id } else s1.path j }
          d (n + 1)
      | (none, s1) =>
        (none, free_preallocated_splits
          { s1 with path := fun j => if j = d then { s1.path d with split := 0 } else s1.path j }
          (d + 1))
    else (some (d, n), s)

/-- The top phase of `preallocate_splits`: when there is no index at all,
or the walk-up reached level 0 with the root full, allocate
`path[d].split` (a second time when the loop already filled it — the
first block is overwritten and leaked) and then the replacement root.
As in the source, each allocation result is stored into its destination
(`path[d].split` resp. `new_root`) before the NULL test, so a failure
leaves NULL there. -/
def preallocRootPhase (oracle : Nat → Bool) (s1 : BTState) (d n : Nat) :
    Except BTState (Nat × BTState) :=
  if s1.depth = 0 ∨ (d = 0 ∧ (s1.path d).num_keys = ORDER - 1) then
    let step1 : Except BTState (Nat × BTState) :=
      if s1.depth ≠ 0 then
        match allocBlock oracle s1 with
        | (some id, s2) =>
          Except.ok (n + 1,
            { s2 with path := fun j => if j = d then { s2.path d with split := id } else s2.path j })
        | (none, s2) =>
          Except.error (free_preallocated_splits
            { s2 with path := fun j => if j = d then { s2.path d with split := 0 } else s2.path j }
            (d + 1))
      else Except.ok (n, s1)
    match step1 with
    | Except.error sE => Except.error sE
    | Except.ok (n1, s2) =>
      match allocBlock oracle s2 with
      | (some id, s3) => Except.ok (n1 + 1, { s3 with new_root := id })
      | (none, s3) => Except.error (free_preallocated_splits { s3 with new_root := 0 } d)
  else Except.ok (n, s1)

/-- Preallocate every block a leaf split may need
(`preallocate_splits`): walk the path upward reserving a peer per full
level, possibly a peer for the root level plus the replacement root,
and finally the new leaf.  Returns the new leaf block (NULL on failure)
and bumps the block counter by the number of successful allocations. -/
def preallocate_splits (oracle : Nat → Bool) (s0 : BTState) : Option Nat × BTState :=
  let sA := { s0 with new_root := 0 }
  match preallocGo oracle sA sA.depth 0 with
  | (none, s1) => (none, s1)
  | (some dn, s1) =>
    match preallocRootPhase oracle s1 dn.1 dn.2 with
    | Except.error sE => (none, sE)
    | Except.ok ns2 =>
      match allocBlock oracle ns2.2 with
      | (some leafId, s3) => (some leafId, { s3 with num_blks := s3.num_blks + ns2.1 + 1 })
      | (none, s3) => (none, free_preallocated_splits s3 dn.1)

/-- Insert a key/value pair (`insert`): reserve the path, descend,
update in place when the key is present, insert into a non-full leaf,
or preallocate and split. -/
def insert (oracle : Nat → Bool) (s : BTState) (k v : Nat) : Option (Err × BTState) :=
  match path_reserved oracle s with
  | (Err.OK, s1) =>
    match find_leaf s1 k with
    | none => none
    | some (leaf, s2) =>
      let nk := num_keys s2 leaf
      let i := scan_leaf_keys s2 leaf k
      if i < nk ∧ get_key s2 leaf i = k then
        some (Err.OK, set_value s2 leaf i v)
      else if nk < ORDER - 1 then
        let s3 := insert_into_leaf s2 leaf i k v
        some (Err.OK, { s3 with num_recs := s3.num_recs + 1 })
      else
        match preallocate_splits oracle s2 with
        | (none, s3) => some (Err.NOMEM, s3)
        | (some splitBlk, s3) =>
          let r := split_leaf s3 leaf splitBlk i k v
          let s4 := insert_new_leaf r.2.2 r.1 r.2.1
          some (Err.OK, { s4 with num_recs := s4.num_recs + 1 })
  | (e, s1) => some (e, s1)

/-- Fix cursors after rotating one item from the right peer into `leaf`
(`fix_cursor_rotate_left`); `num_keys` is read after the rotation. -/
def fix_cursor_rotate_left (s : BTState) (leaf rpeer : Nat) : BTState :=
  { s with
    cursor_list := s.cursor_list.map fun bc =>
      if bc.leaf = rpeer then
        if bc.pos = 0 then { bc with leaf := leaf, pos := num_keys s leaf - 1 }
        else { bc with pos := bc.pos - 1 }
      else bc }

/-- Fix cursors after rotating one item from the left peer into `leaf`
(`fix_cursor_rotate_right`); `num_keys lpeer` is read after the
rotation decremented it, so it names the donated slot. -/
def fix_cursor_rotate_right (s : BTState) (lpeer leaf : Nat) : BTState :=
  { s with
    cursor_list := s.cursor_list.map fun bc =>
      if bc.leaf = leaf then { bc with pos := bc.pos + 1 }
      else if bc.leaf = lpeer ∧ bc.pos = num_keys s lpeer then
        { bc with leaf := leaf, pos := 0 }
      else bc }

/-- Fix cursors on a leaf merged away into its left neighbour
(`fix_cursor_merge`); the debug `printf` in the source only writes to
stdout and has no state effect. -/
def fix_cursor_merge (s : BTState) (leaf peer nkl : Nat) : BTState :=
  { s with
    cursor_list := s.cursor_list.map fun bc =>
      if bc.leaf = peer then { bc with leaf := leaf, pos := bc.pos + nkl } else bc }

/-- Merge index node `r` into `l` around the parent splitter `sKey`
(`merge_index_nodes`; the `CHECK_INVARIANTS` blocks are compiled out). -/
def merge_index_nodes (s : BTState) (l r sKey : Nat) : BTState :=
  let nkl := num_keys s l
  let nkr := num_keys s r
  let s1 := setWord s l (KEY_0 + nkl) sKey
  let s2 := setBlk s1 l ((s1.mem l).copyWords (KEY_0 + nkl + 1) (s1.mem r) KEY_0 nkr)
  let s3 := setBlk s2 l ((s2.mem l).copyWords (FIELD_0 + nkl + 1) (s2.mem r) FIELD_0 (nkr + 1))
  let s4 := set_num_keys s3 l (num_keys s3 l + nkr + 1)
  let s5 := freeBlock s4 r
  { s5 with num_blks := s5.num_blks - 1 }

/-- Restore the minimum-occupancy invariant for the underflowing index
node `inode` at path level `d` (`index_underflow`): rotate from the
right peer, rotate from the left peer, or merge.  Returns whether a
merge happened, the parent slot to remove recursively, and the new
state.  The child moved by a rotation is accessed through the `value`
member exactly as in the source — all words are plain `Nat` here. -/
def index_underflow (s : BTState) (d inode : Nat) : Bool × Nat × BTState :=
  let parent := (s.path d).node
  let pos := (s.path d).pos
  let nkp := (s.path d).num_keys
  let nki := num_keys s inode
  let rpeer := get_child s parent (pos + 1)
  let nkr := num_keys s rpeer
  if pos < nkp ∧ nki + nkr > ORDER - 2 then
    let s1 := setWord s inode (KEY_0 + nki) ((s.mem parent).words (KEY_0 + pos))
    let s2 := setWord s1 parent (KEY_0 + pos) ((s1.mem rpeer).words KEY_0)
    let s3 := setWord s2 inode (FIELD_0 + nki + 1) ((s2.mem rpeer).words FIELD_0)
    let s4 := setBlk s3 rpeer ((s3.mem rpeer).copyWords KEY_0 (s3.mem rpeer) (KEY_0 + 1) (nkr - 1))
    let s5 := setBlk s4 rpeer ((s4.mem rpeer).copyWords FIELD_0 (s4.mem rpeer) (FIELD_0 + 1) nkr)
    let s6 := set_num_keys s5 inode (num_keys s5 inode + 1)
    let s7 := set_num_keys s6 rpeer (num_keys s6 rpeer - 1)
    (false, pos, s7)
  else if pos > 0 then
    let lpeer := get_child s parent (pos - 1)
    let nkl := num_keys s lpeer
    if nkl + nki > ORDER - 2 then
      let s1 := setBlk s inode ((s.mem inode).copyWords (KEY_0 + 1) (s.mem inode) KEY_0 nki)
      let s2 := setBlk s1 inode ((s1.mem inode).copyWords (FIELD_0 + 1) (s1.mem inode) FIELD_0 (nki + 1))
      let s3 := setWord s2 inode KEY_0 ((s2.mem parent).words (KEY_0 + pos - 1))
      let s4 := setWord s3 parent (KEY_0 + pos - 1) ((s3.mem lpeer).words (KEY_0 + nkl - 1))
      let s5 := setWord s4 inode FIELD_0 ((s4.mem lpeer).words (FIELD_0 + nkl))
      let s6 := set_num_keys s5 inode (num_keys s5 inode + 1)
      let s7 := set_num_keys s6 lpeer (num_keys s6 lpeer - 1)
      (false, pos, s7)
    else
      (true, pos, merge_index_nodes s lpeer inode ((s.mem parent).words (KEY_0 + pos - 1)))
  else
    (true, pos + 1, merge_index_nodes s inode rpeer ((s.mem parent).words (KEY_0 + pos)))

/-- Remove the key at `pos - 1` and the child at `pos` from the index
node recorded at path level `d`, using the key count recorded during
the descent (the removal step of `shrink_index_ancestors`). -/
def shrinkRemove (s : BTState) (d pos : Nat) : BTState :=
  let inode := (s.path d).node
  let nk := (s.path d).num_keys
  let s1 :=
    if nk - pos > 0 then
      let blk := s.mem inode
      let blk1 := blk.copyWords (KEY_0 + pos - 1) blk (KEY_0 + pos) (nk - pos)
      let blk2 := blk1.copyWords (FIELD_0 + pos) blk1 (FIELD_0 + pos + 1) (nk - pos)
      setBlk s inode blk2
    else s
  set_num_keys s1 inode (nk - 1)

/-- Walk the recorded path upward removing vacated slots
(`shrink_index_ancestors`): collapse an empty root, or fix an
underflowing inner level and recurse when it merged. -/
def shrink_index_ancestors : BTState → Nat → Nat → BTState
  | s, 0, pos =>
    let inode := (s.path 0).node
    let nk := (s.path 0).num_keys - 1
    let s1 := shrinkRemove s 0 pos
    if nk = 0 then
      let s2 := { s1 with root := (s1.mem inode).words FIELD_0, depth := s1.depth - 1 }
      let s3 := freeBlock s2 inode
      let s4 := { s3 with num_blks := s3.num_blks - 1 }
      if s4.depth = 0 then { s4 with path_length := 0, pathNull := true } else s4
    else s1
  | s, d + 1, pos =>
    let inode := (s.path (d + 1)).node
    let nk := (s.path (d + 1)).num_keys - 1
    let s1 := shrinkRemove s (d + 1) pos
    if nk < LHALF then
      let r := index_underflow s1 d inode
      if r.1 then shrink_index_ancestors r.2.2 d r.2.1 else r.2.2
    else s1

/-- Merge leaf `r` into leaf `l` (`merge_leaf_nodes`): append records,
inherit the successor pointer, fix cursors, free `r`. -/
def merge_leaf_nodes (s : BTState) (l r : Nat) : BTState :=
  let nkl := num_keys s l
  let nkr := num_keys s r
  let s1 := setBlk s l ((s.mem l).copyWords (KEY_0 + nkl) (s.mem r) KEY_0 nkr)
  let s2 := setBlk s1 l ((s1.mem l).copyWords (FIELD_0 + nkl) (s1.mem r) FIELD_0 nkr)
  let s3 := set_num_keys s2 l (num_keys s2 l + nkr)
  let s4 := setWord s3 l NEXT ((s3.mem r).words NEXT)
  let s5 := fix_cursor_merge s4 l r nkl
  let s6 := freeBlock s5 r
  { s6 with num_blks := s6.num_blks - 1 }

/-- Restore the minimum-occupancy invariant for an underflowing
non-root leaf (`leaf_underflow`): rotate from the right peer, rotate
from the left peer, or merge and shrink the ancestors. -/
def leaf_underflow (s : BTState) (leaf : Nat) : BTState :=
  let d := s.depth - 1
  let parent := (s.path d).node
  let pos := (s.path d).pos
  let nk := (s.path d).num_keys
  let rpeer := get_child s parent (pos + 1)
  if pos < nk ∧ num_keys s rpeer > LHALF then
    let s1 := setWord s leaf (KEY_0 + LHALF - 1) ((s.mem rpeer).words KEY_0)
    let s2 := setWord s1 leaf (FIELD_0 + LHALF - 1) ((s1.mem rpeer).words FIELD_0)
    let s3 := setBlk s2 rpeer ((s2.mem rpeer).copyWords KEY_0 (s2.mem rpeer) (KEY_0 + 1) (num_keys s2 rpeer - 1))
    let s4 := setBlk s3 rpeer ((s3.mem rpeer).copyWords FIELD_0 (s3.mem rpeer) (FIELD_0 + 1) (num_keys s3 rpeer - 1))
    let s5 := set_num_keys s4 leaf (num_keys s4 leaf + 1)
    let s6 := set_num_keys s5 rpeer (num_keys s5 rpeer - 1)
    let s7 := setWord s6 parent (KEY_0 + pos) ((s6.mem rpeer).words KEY_0)
    fix_cursor_rotate_left s7 leaf rpeer
  else if pos > 0 then
    let lpeer := get_child s parent (pos - 1)
    if num_keys s lpeer > LHALF then
      let s1 := setBlk s leaf ((s.mem leaf).copyWords (KEY_0 + 1) (s.mem leaf) KEY_0 (num_keys s leaf))
      let s2 := setBlk s1 leaf ((s1.mem leaf).copyWords (FIELD_0 + 1) (s1.mem leaf) FIELD_0 (num_keys s1 leaf))
      let s3 := setWord s2 leaf KEY_0 ((s2.mem lpeer).words (KEY_0 + num_keys s2 lpeer - 1))
      let s4 := setWord s3 leaf FIELD_0 ((s3.mem lpeer).words (FIELD_0 + num_keys s3 lpeer - 1))
      let s5 := set_num_keys s4 leaf (num_keys s4 leaf + 1)
      let s6 := set_num_keys s5 lpeer (num_keys s5 lpeer - 1)
      let s7 := setWord s6 parent (KEY_0 + pos - 1) ((s6.mem leaf).words KEY_0)
      fix_cursor_rotate_right s7 lpeer leaf
    else
      let s1 := merge_leaf_nodes s lpeer leaf
      shrink_index_ancestors s1 (s1.depth - 1) pos
  else
    let s1 := merge_leaf_nodes s leaf rpeer
    shrink_index_ancestors s1 (s1.depth - 1) (pos + 1)

/-- Delete the record with key `k` (`delete`): reserve the path,
descend, remove the record and fix cursors, then handle a possible
underflow.  Returns the same errors the source returns, including the
`path_reserved` failure. -/
def delete (oracle : Nat → Bool) (s : BTState) (k : Nat) : Option (Err × BTState) :=
  match path_reserved oracle s with
  | (Err.OK, s1) =>
    match find_leaf s1 k with
    | none => none
    | some (leaf, s2) =>
      let nk := num_keys s2 leaf
      let i := scan_leaf_keys s2 leaf k
      if i < nk ∧ get_key s2 leaf i = k then
        let sfx := nk - i - 1
        let s3 :=
          if sfx ≠ 0 then
            let blk := s2.mem leaf
            let blk1 := blk.copyWords (KEY_0 + i) blk (KEY_0 + i + 1) sfx
            let blk2 := blk1.copyWords (FIELD_0 + i) blk1 (FIELD_0 + i + 1) sfx
            setBlk s2 leaf blk2
          else s2
        let s4 := set_num_keys s3 leaf (nk - 1)
        let s5 := { s4 with num_recs := s4.num_recs - 1 }
        let s6 : BTState := { s5 with
          cursor_list := s5.cursor_list.map fun bc =>
            if bc.leaf = leaf then
              if bc.pos = i then { bc with invalid := true }
              else if bc.pos > i then { bc with pos := bc.pos - 1 }
              else bc
            else bc }
        let s7 := if 0 < s6.depth then (if nk ≤ LHALF then leaf_underflow s6 leaf else s6) else s6
        some (Err.OK, s7)
      else some (Err.NOTFOUND, s2)
  | (e, s1) => some (e, s1)

/-- Cursor at the first record (`first_record`). -/
def first_record (oracle : Nat → Bool) (s : BTState) : Option Cursor × BTState :=
  make_bplus_cursor oracle s s.leaves 0

/-- Advance a cursor (`next_record`).  The source reads
`num_keys(l)` through `l = c->leaf` without a NULL check; a call with a
NULL leaf pointer (left behind by a previous end-of-tree advance) is
the modelled crash.  The function mutates only the cursor, never the
tree. -/
def next_record (s : BTState) (c : Cursor) : Option (Err × Cursor) :=
  if c.leaf = 0 then none
  else
    let c1 := if c.invalid then { c with invalid := false } else { c with pos := c.pos + 1 }
    if num_keys s c1.leaf ≤ c1.pos then
      let l := next_leaf s c1.leaf
      some (if l ≠ 0 then Err.OK else Err.NOTFOUND, { c1 with leaf := l, pos := 0 })
    else some (Err.OK, c1)

/-- Cursor at the smallest key `≥ k` (`find_record`). -/
def find_record (oracle : Nat → Bool) (s : BTState) (k : Nat) :
    Option (Option Cursor × BTState) :=
  if s.root ≠ 0 then
    match path_reserved oracle s with
    | (Err.OK, s1) =>
      match find_leaf s1 k with
      | none => none
      | some (leaf, s2) =>
        let r := make_bplus_cursor oracle s2 leaf (scan_leaf_keys s2 leaf k)
        some (r.1, r.2)
    | (_, s1) => some (none, s1)
  else some (none, s)

/-- Read the record at a cursor (`get_record`).  Note that the owning
tree's liveness is not consulted: only the invalid flag, a NULL leaf
pointer, and the position bound are checked. -/
def get_record (s : BTState) (c : Cursor) : Err × Option (Nat × Nat) :=
  if ¬c.invalid ∧ c.leaf ≠ 0 ∧ num_keys s c.leaf > c.pos then
    (Err.OK, some (get_key s c.leaf c.pos, (s.mem c.leaf).words (FIELD_0 + c.pos)))
  else (Err.NOTFOUND, none)

/-- Overwrite the value at a cursor (`update_record`). -/
def update_record (s : BTState) (c : Cursor) (v : Nat) : Err × BTState :=
  if ¬c.invalid ∧ c.leaf ≠ 0 ∧ num_keys s c.leaf > c.pos then
    (Err.OK, setWord s c.leaf (FIELD_0 + c.pos) v)
  else (Err.NOTFOUND, s)

/-- Unlink the first occurrence of a cursor from the registry (the
unlink loop of `free_cursor`; pointer identity is approximated by value
equality). -/
def removeFirstCursor : List Cursor → Cursor → List Cursor
  | [], _ => []
  | x :: xs, c => if x = c then xs else x :: removeFirstCursor xs c

/-- Release a cursor (`free_cursor`).  After the `free(c)` the source
unconditionally executes `b->num_crsrs -= 1`; when the owning tree was
already destroyed `b` is NULL and that write is the modelled crash. -/
def free_cursor (s : BTState) (c : Cursor) : Option BTState :=
  let b := c.tree
  let s1 := if b ≠ 0 then { s with cursor_list := removeFirstCursor s.cursor_list c } else s
  if b = 0 then none
  else some { s1 with num_crsrs := s1.num_crsrs - 1 }

/-- Owning tree of a cursor (`get_tree`); 0 is the NULL handle. -/
def get_tree (c : Cursor) : Nat := c.tree

/-- Fold a release action over a list of blocks (the child loop of
`free_index_subtree`; freeing never changes block contents, so the
children read up front are the ones the C loop reads one by one). -/
def freeList (f : BTState → Nat → BTState) : BTState → List Nat → BTState
  | s, [] => s
  | s, b :: rest => freeList f (f s b) rest

/-- Free a whole subtree depth-first (`free_index_subtree`); the first
argument is the number of levels above the leaf row, i.e.
`b->depth - d`. -/
def free_index_subtree : Nat → BTState → Nat → BTState
  | 0, s, blk =>
    let s1 := freeBlock s blk
    { s1 with num_blks := s1.num_blks - 1 }
  | rem + 1, s, blk =>
    let kids := (List.range (num_keys s blk + 1)).map fun i => (s.mem blk).words (FIELD_0 + i)
    let s1 := freeList (fun st kid => free_index_subtree rem st kid) s kids
    let s2 := freeBlock s1 blk
    { s2 with num_blks := s2.num_blks - 1 }

/-- Destroy a tree (`free_bplus_tree`): deactivate every cursor, free
all nodes, free the path array.  The handle's fields remain readable in
the model, matching the C handle which is in fact never freed. -/
def free_bplus_tree (s : BTState) : BTState :=
  let s1 := { s with cursor_list := s.cursor_list.map fun bc => { bc with tree := 0 } }
  let s2 := free_index_subtree s1.depth s1 s1.root
  { s2 with pathNull := true }

/-- Observer (not from the source): the live keys of a leaf block. -/
def leafKeys (s : BTState) (b : Nat) : List Nat :=
  (List.range (num_keys s b)).map fun i => get_key s b i

/-- Observer: the children of an index node. -/
def levelKids (s : BTState) (b : Nat) : List Nat :=
  (List.range (num_keys s b + 1)).map fun i => get_child s b i

/-- Observer: count the nodes of the tree, level by level from the root. -/
def countLevels (s : BTState) : List Nat → Nat → Nat
  | blks, 0 => blks.length
  | blks, rem + 1 => blks.length + countLevels s ((blks.map (levelKids s)).flatten) rem

/-- Observer: the total number of nodes of the tree. -/
def countNodes (s : BTState) : Nat := countLevels s [s.root] s.depth

/-- Observer: the leaf row of the tree, in left-to-right order. -/
def leafRow (s : BTState) : List Nat → Nat → List Nat
  | blks, 0 => blks
  | blks, rem + 1 => leafRow s ((blks.map (levelKids s)).flatten) rem

/-- Observer: the sum of the key counts over all leaves. -/
def sumLeafKeys (s : BTState) : Nat :=
  ((leafRow s [s.root] s.depth).map (num_keys s)).sum

/-! ## Concrete scenario states used by the claims -/

/-- An allocator that always succeeds. -/
def oracleAll : Nat → Bool := fun _ => true

/-- An allocator that always fails. -/
def oracleNone : Nat → Bool := fun _ => false

/-- An allocator that fails exactly on the second attempt of a run. -/
def oracleSecondFails : Nat → Bool := fun n => if n = 1 then false else true

/-- Fallback cursor value for extracting from a registry. -/
def junkCursor : Cursor := ⟨99, 99, 99, true⟩

/-- Fallback state for extracting from an `Option` chain. -/
def deadState : BTState :=
  { mem := fun _ => zeroBlock
    nextId := 0
    allocCount := 0
    allocLog := []
    freeLog := []
    root := 0
    leaves := 0
    depth := 0
    cursor_list := []
    num_recs := 0
    num_blks := 0
    num_crsrs := 0
    path_length := 0
    path := fun _ => PathNode.blank
    pathNull := true
    new_root := 0 }

/-- Run an insert inside an `Option` chain of operations. -/
def chainIns (k v : Nat) (s : Option BTState) : Option BTState :=
  s.bind fun t => (insert oracleAll t k v).map (fun r => r.2)

/-- Run a delete inside an `Option` chain of operations. -/
def chainDel (k : Nat) (s : Option BTState) : Option BTState :=
  s.bind fun t => (delete oracleAll t k).map (fun r => r.2)

/-- C1 scenario: from an empty tree, insert 3 and 5, then delete 5.  The
leaf's live prefix is `[3]`, but key slot 1 still holds the stale 5. -/
def c1state : Option BTState :=
  chainDel 5 (chainIns 5 50 (chainIns 3 30 (new_bplus_tree oracleAll)))

/-- C1 scenario: the result and output value of `find 5` on `c1state`. -/
def c1find : Option (Err × Option Nat) :=
  c1state.bind fun t => (find oracleAll t 5).map (fun r => (r.1, r.2.1))

/-- C3 scenario: a full root leaf holding keys `1..255` with value
`10 * key`.  Reachable by inserting those 255 records into an empty
tree. -/
def leaf255 : Block :=
  ⟨fun w =>
    if w = HEADER then 255
    else if 1 ≤ w ∧ w ≤ 255 then w
    else if 256 ≤ w ∧ w ≤ 510 then 10 * (w - 255)
    else 0⟩

/-- C3 scenario: single-leaf tree with a cursor parked at position 200
(record `(201, 2010)`). -/
def stC3 : BTState :=
  { mem := fun j => if j = 1 then leaf255 else zeroBlock
    nextId := 2
    allocCount := 0
    allocLog := []
    freeLog := []
    root := 1
    leaves := 1
    depth := 0
    cursor_list := [⟨1, 1, 200, false⟩]
    num_recs := 255
    num_blks := 1
    num_crsrs := 1
    path_length := 0
    path := fun _ => PathNode.blank
    pathNull := true
    new_root := 0 }

/-- C3 scenario: `stC3` after inserting key 256, which splits the leaf. -/
def c3after : Option BTState := (insert oracleAll stC3 256 2560).map (fun r => r.2)

/-- Leaf `j` (ids 1..255) of the full-root state: 128 keys
`1000 j .. 1000 j + 127`, chained to leaf `j + 1`. -/
def bigLeaf (j : Nat) : Block :=
  ⟨fun w =>
    if w = HEADER then 128
    else if 1 ≤ w ∧ w ≤ 128 then 1000 * j + (w - 1)
    else if 256 ≤ w ∧ w ≤ 383 then 500000 + 1000 * j + (w - 256)
    else if w = NEXT then j + 1
    else 0⟩

/-- The rightmost leaf (id 256) of the full-root state: full with 255
keys `256000 .. 256254` and no successor. -/
def bigLeafLast : Block :=
  ⟨fun w =>
    if w = HEADER then 255
    else if 1 ≤ w ∧ w ≤ 255 then 256000 + (w - 1)
    else if 256 ≤ w ∧ w ≤ 510 then 756000 + (w - 256)
    else 0⟩

/-- The full root (id 257): 255 keys `1000 t` separating its 256 leaf
children. -/
def bigRoot : Block :=
  ⟨fun w =>
    if w = HEADER then 255
    else if 1 ≤ w ∧ w ≤ 255 then 1000 * (w + 1)
    else if 256 ≤ w ∧ w ≤ 511 then w - 255
    else 0⟩

/-- C2/C5 scenario: a depth-1 tree whose root is full (255 keys, 256
leaf children) and whose rightmost leaf is full, the state reached after
inserting ascending keys until both fill up.  Counters are exact:
`num_blks = 257` nodes, `num_recs = 255·128 + 255` records. -/
def bigState : BTState :=
  { mem := fun j =>
      if j = 257 then bigRoot
      else if j = 256 then bigLeafLast
      else if 1 ≤ j ∧ j ≤ 255 then bigLeaf j
      else zeroBlock
    nextId := 258
    allocCount := 0
    allocLog := []
    freeLog := []
    root := 257
    leaves := 1
    depth := 1
    cursor_list := []
    num_recs := 255 * 128 + 255
    num_blks := 257
    num_crsrs := 0
    path_length := 1
    path := fun _ => PathNode.blank
    pathNull := false
    new_root := 0 }

/-- C5 scenario: `bigState` after a successful insert of a key greater
than every stored key, which splits the rightmost leaf, the full root,
and installs a replacement root. -/
def c5after : Option BTState := (insert oracleAll bigState 300000 777).map (fun r => r.2)

/-- C2 scenario: the same insert into `bigState`, with the allocator
refusing the second block of the preallocation pass. -/
def c2run : Option (Err × BTState) := insert oracleSecondFails bigState 300000 777

/-- C2 scenario: the state left behind by the failing insert. -/
def c2state : BTState := (c2run.map (fun r => r.2)).getD deadState

/-- Leaf `j` (ids 1, 2) of the C6 state: 128 keys each. -/
def c6leaf (j : Nat) : Block :=
  ⟨fun w =>
    if w = HEADER then 128
    else if 1 ≤ w ∧ w ≤ 128 then 1000 * j + (w - 1)
    else if 256 ≤ w ∧ w ≤ 383 then 500000 + 1000 * j + (w - 256)
    else if w = NEXT then (if j = 1 then 2 else 0)
    else 0⟩

/-- Root (id 3) of the C6 state: one key, two leaf children. -/
def c6root : Block :=
  ⟨fun w =>
    if w = HEADER then 1
    else if w = 1 then 2000
    else if w = 256 then 1
    else if w = 257 then 2
    else 0⟩

/-- C6 scenario: a depth-1 tree immediately after an insert grew the
tree out of its root leaf, so the scratch path array has never been
allocated (`path_length = 0 < depth = 1`, `path = NULL`). -/
def stC6 : BTState :=
  { mem := fun j => if j = 3 then c6root else if 1 ≤ j ∧ j ≤ 2 then c6leaf j else zeroBlock
    nextId := 4
    allocCount := 0
    allocLog := []
    freeLog := []
    root := 3
    leaves := 1
    depth := 1
    cursor_list := []
    num_recs := 256
    num_blks := 3
    num_crsrs := 0
    path_length := 0
    path := fun _ => PathNode.blank
    pathNull := true
    new_root := 0 }

/-- C6 scenario: deleting key 1000 from `stC6` while the allocator
refuses the path-array regrowth. -/
def c6run : Option (Err × BTState) := delete oracleNone stC6 1000

/-- C6 scenario: the state left behind by the failing delete. -/
def c6state : BTState := (c6run.map (fun r => r.2)).getD deadState

/-- C7 scenario: tree `{(5,50), (6,60)}` with a cursor created at key 5
(position 0). -/
def c7state : Option BTState :=
  ((chainIns 6 60 (chainIns 5 50 (new_bplus_tree oracleAll))).bind fun t =>
    (find_record oracleAll t 5).map (fun r => r.2))

/-- C7 scenario: `c7state` after deleting key 5 (which invalidates the
cursor) and inserting `(5, 55)` into the same slot. -/
def c7after : Option BTState :=
  chainIns 5 55 (chainDel 5 c7state)

/-- C8 scenario: tree `{(1, 10)}` with a cursor at the first record,
after the tree has been destroyed. -/
def c8freed : Option BTState :=
  (chainIns 1 10 (new_bplus_tree oracleAll)).map fun t =>
    free_bplus_tree (first_record oracleAll t).2

/-- C10 scenario: the tree `{(1, 10)}`. -/
def stC10 : BTState := (chainIns 1 10 (new_bplus_tree oracleAll)).getD deadState

/-! ## Auxiliary observers for the functional-correctness development -/

/-- A state with its heap blanked out; two states with equal `sansMem`
differ at most in block contents. -/
def sansMem (s : BTState) : BTState := { s with mem := fun _ => zeroBlock }

/-- The combined child sequence of an index split: the 256 original
children `P 0 .. P 255` with the new child inserted just after position
`pos` (257 entries, indices 0..256). -/
def splitChC (P : Nat → Nat) (pos newc t : Nat) : Nat :=
  if t ≤ pos then P t else if t = pos + 1 then newc else P (t - 1)

/-- The combined key sequence of an index split: the 255 original keys
`P 0 .. P 254` with the new key inserted at position `pos` (256
entries, indices 0..255). -/
def splitKC (P : Nat → Nat) (pos k t : Nat) : Nat :=
  if t < pos then P t else if t = pos then k else P (t - 1)

/-- Where combined child entry `t` lives after the split: entries
`0..128` stay in the parent, entries `129..256` go to slots `0..127` of
the new peer. -/
def chSlotRead (s : BTState) (parent newp t : Nat) : Nat :=
  if 129 ≤ t then (s.mem newp).words (FIELD_0 + (t - 129))
  else (s.mem parent).words (FIELD_0 + t)

/-- Where combined key entry `t` lives after the split: entries `0..127`
stay live in the parent, entry `128` is the promoted key left behind in
the parent's slot 128, and entries `129..255` go to slots `0..126` of
the new peer. -/
def kSlotRead (s : BTState) (parent newp t : Nat) : Nat :=
  if 129 ≤ t then (s.mem newp).words (KEY_0 + (t - 129))
  else (s.mem parent).words (KEY_0 + t)

/-- Remaining combined child entries still to be placed when the child
loop's fuel is `f` (the new child is pending until source position
`pos + 1` has been processed). -/
def chRem (pos f : Nat) : Nat := if f ≤ pos + 1 then f else f + 1

/-- Remaining combined key entries still to be placed when the key
loop's fuel is `f` (the new key is pending until source position `pos`
has been processed). -/
def kRem (pos f : Nat) : Nat := if f ≤ pos then f else f + 1

/-- Pure descent (the route `find_leaf` takes, without the path
bookkeeping): from `node`, follow `scan_index_keys` for `rem` levels. -/
def descGo (s : BTState) (k : Nat) : Nat → Nat → Nat
  | node, 0 => node
  | node, rem + 1 => descGo s k (get_child s node (scan_index_keys s node k)) rem

/-- The leaf the descent for `k` reaches. -/
def descLeaf (s : BTState) (k : Nat) : Nat := descGo s k s.root s.depth

/-- All node ids of the tree, level by level. -/
def idsLevels (s : BTState) : List Nat → Nat → List Nat
  | blks, 0 => blks
  | blks, rem + 1 => blks ++ idsLevels s ((blks.map (levelKids s)).flatten) rem

/-- The ids of every node of the tree. -/
def treeIds (s : BTState) : List Nat := idsLevels s [s.root] s.depth

/-- Lower-bound check for an optional (open) bound. -/
def loB (lo : Option Nat) (k : Nat) : Prop :=
  match lo with
  | none => True
  | some l => l ≤ k

/-- Upper-bound check for an optional (open) bound. -/
def hiB (hi : Option Nat) (k : Nat) : Prop :=
  match hi with
  | none => True
  | some h => k < h

/-- The live keys of a node are strictly ascending and lie in the
window `[lo, hi)`. -/
def NodeWF (s : BTState) (b : Nat) (lo hi : Option Nat) : Prop :=
  (∀ p q, p < q → q < num_keys s b → get_key s b p < get_key s b q) ∧
  (∀ p, p < num_keys s b → loB lo (get_key s b p) ∧ hiB hi (get_key s b p))

/-- The search-structure invariant of a subtree with `rem` internal
levels above its leaf row: key counts in range, keys sorted within the
window, and each child covering the sub-window cut by the splitters
(leaf scan uses `≥`, index scan uses `>`, so child `i` covers
`[key (i-1), key i)`). -/
def SubWF (s : BTState) : Nat → Nat → Option Nat → Option Nat → Prop
  | 0, b, lo, hi => num_keys s b ≤ 255 ∧ NodeWF s b lo hi
  | rem + 1, b, lo, hi =>
      num_keys s b ≤ 255 ∧ 1 ≤ num_keys s b ∧ NodeWF s b lo hi ∧
      ∀ idx, idx ≤ num_keys s b →
        SubWF s rem (get_child s b idx)
          (if idx = 0 then lo else some (get_key s b (idx - 1)))
          (if idx = num_keys s b then hi else some (get_key s b idx))

/-- Well-formedness of a tree state: the search structure holds from
the root, node ids are positive, below the allocation cursor and
pairwise distinct, and the scratch path array is usable whenever the
depth requires it. -/
def WF (s : BTState) : Prop :=
  SubWF s s.depth s.root none none ∧
  (treeIds s).Nodup ∧
  (∀ b, b ∈ treeIds s → 0 < b ∧ b < s.nextId) ∧
  (s.depth ≤ s.path_length → s.depth ≠ 0 → s.pathNull = false)

/-! ## Theorems settling the claims -/

/-- Claim C1.  The claim states that `find` returns not-found whenever
the key is not present, in particular when the key is greater than every
key in the leaf the descent reaches.  The code is wrong: `find` compares
`get_key(leaf, i)` without checking `i < num_keys`, so after
insert 3, insert 5, delete 5 on an empty tree the stale key slot still
holds 5, and `find 5` returns OK with the stale value 50 even though the
live records are exactly `[3]` (record count 1). -/
theorem C1_find_reports_stale_deleted_key :
    c1find = some (Err.OK, some 50) ∧
    (c1state.map fun t => leafKeys t t.root) = some [3] ∧
    (c1state.map fun t => t.num_recs) = some 1 :=
  ⟨by decide, by decide, by decide⟩

set_option maxRecDepth 1000000 in
/-- Claim C2.  The claim states that a failed insert frees every block
allocated during the preallocation pass and mutates no tree state.  The
code is wrong: on the full-root state `bigState`, with the allocator
failing the second attempt, `preallocate_splits` first allocates block
258 for `path[0].split` in its walk-up loop, then tries to allocate the
same slot again; the failure path frees only levels above `d + 1 = 1`,
so block 258 is never freed (`freeLog = []` though `allocLog = [258]`).
The observable tree state is indeed untouched (counters, root, depth,
replacement-root slot), and the failed second attempt overwrites the
path frame's `split` slot with NULL, so no reference to the leaked
block 258 survives anywhere. -/
theorem C2_preallocation_failure_leaks_reserved_block :
    (c2run.map fun r => r.1) = some Err.NOMEM ∧
    (c2run.map fun r => (r.2.allocLog, r.2.freeLog)) = some ([258], ([] : List Nat)) ∧
    (c2run.map fun r => (r.2.num_blks, r.2.num_recs, r.2.num_crsrs, r.2.root, r.2.depth, r.2.new_root)) =
      some (257, 255 * 128 + 255, 0, 257, 1, 0) ∧
    (c2run.map fun r => ((r.2.path 0).node, (r.2.path 0).num_keys, (r.2.path 0).pos, (r.2.path 0).split)) =
      some (257, 255, 255, 0) :=
  ⟨by decide, by decide, by decide, by decide⟩

set_option maxRecDepth 400000 in
/-- Claim C3.  The claim states that after a leaf split every cursor
whose post-bump position is at least LHALF moves to the new sibling and
afterwards returns the same record as before.  The code is wrong: the
fix-up in `split_leaf` subtracts LHALF from the position but never
redirects the cursor's leaf pointer.  On a full single-leaf tree with
keys 1..255 (values 10·key) and a cursor at position 200 (record
(201, 2010)), inserting key 256 splits the leaf and leaves the cursor
on the old leaf at position 72, where its get now returns (73, 730). -/
theorem C3_split_leaf_leaves_cursor_on_old_leaf :
    get_record stC3 ⟨1, 1, 200, false⟩ = (Err.OK, some (201, 2010)) ∧
    (c3after.map fun t => t.cursor_list.headD junkCursor) = some ⟨1, 1, 72, false⟩ ∧
    (c3after.map fun t => get_record t (t.cursor_list.headD junkCursor)) =
      some (Err.OK, some (73, 730)) ∧
    (c3after.map fun t => (t.depth, t.num_recs, t.num_blks)) = some (1, 256, 3) :=
  ⟨by decide, by decide, by decide, by decide⟩

set_option maxRecDepth 4000000 in
/-- Claim C5.  The claim states that after every successful operation
the block counter equals the number of nodes of the tree, in particular
after an insert that splits a full root.  The code is wrong: on
`bigState` (exact counters, 257 nodes) the preallocation pass allocates
the root-level sibling twice, so the successful insert adds three nodes
to the tree but counts four allocations: afterwards `num_blks = 261`
while the tree has 260 nodes.  The record counter stays exact. -/
theorem C5_full_root_split_overcounts_blocks :
    bigState.num_blks = countNodes bigState ∧
    bigState.num_recs = sumLeafKeys bigState ∧
    ((insert oracleAll bigState 300000 777).map fun r => r.1) = some Err.OK ∧
    (c5after.map fun t => t.num_blks) = some 261 ∧
    (c5after.map fun t => countNodes t) = some 260 ∧
    (c5after.map fun t => (t.num_recs, sumLeafKeys t)) = some (255 * 128 + 256, 255 * 128 + 256) :=
  ⟨by decide, by decide, by decide, by decide, by decide, by decide⟩

/-- Claim C6, counterexample.  The claim states that `delete` never
returns out-of-memory.  On `stC6` — a tree whose depth just grew to 1,
so the scratch path array (length 0) must be regrown — a failing
allocator makes `delete 1000` return NOMEM, with the tree contents and
counters untouched; with a working allocator the same delete returns
OK, showing the key was present. -/
theorem C6_delete_returns_out_of_memory :
    (c6run.map fun r => r.1) = some Err.NOMEM ∧
    (c6run.map fun r => (r.2.num_recs, r.2.num_blks, r.2.root, r.2.depth)) =
      some (256, 3, 3, 1) ∧
    ((delete oracleAll stC6 1000).map fun r => r.1) = some Err.OK :=
  ⟨by decide, by decide, by decide⟩

/-- Helper for C6: `path_reserved` either reports OK, or reports NOMEM
exactly when the path array had to grow and the allocation failed, in
which case only the path bookkeeping changed. -/
theorem path_reserved_fst (oracle : Nat → Bool) (s : BTState) :
    (path_reserved oracle s).1 = Err.OK ∨
      ((path_reserved oracle s).1 = Err.NOMEM ∧ s.path_length < s.depth ∧
        oracle s.allocCount = false ∧
        (path_reserved oracle s).2 =
          { s with path_length := s.depth, allocCount := s.allocCount + 1, pathNull := true }) := by
  unfold path_reserved
  by_cases hlt : s.path_length < s.depth
  · by_cases ho : oracle s.allocCount
    · left; simp [hlt, ho]
    · right; simp [hlt, ho]
  · left; simp [hlt]

/-- Claim C6, amended.  Delete returns OK or not-found, or out-of-memory
exactly when the scratch path array must be regrown and that allocation
fails; in the out-of-memory case no tree mutation has occurred — the
heap, root, leaf chain head, depth, all three counters, the cursor
registry and the allocation/free logs are unchanged (only the path
bookkeeping was touched). -/
theorem C6_delete_error_contract (oracle : Nat → Bool) (s : BTState) (k : Nat)
    (e : Err) (s' : BTState) (h : delete oracle s k = some (e, s')) :
    e = Err.OK ∨ e = Err.NOTFOUND ∨
      (e = Err.NOMEM ∧ s.path_length < s.depth ∧ oracle s.allocCount = false ∧
        s'.mem = s.mem ∧ s'.root = s.root ∧ s'.leaves = s.leaves ∧
        s'.depth = s.depth ∧ s'.num_recs = s.num_recs ∧ s'.num_blks = s.num_blks ∧
        s'.num_crsrs = s.num_crsrs ∧ s'.cursor_list = s.cursor_list ∧
        s'.freeLog = s.freeLog ∧ s'.allocLog = s.allocLog) := by
  unfold delete at h
  rcases hpr : path_reserved oracle s with ⟨e1, s1⟩
  rw [hpr] at h
  rcases path_reserved_fst oracle s with hok | ⟨hnm, hlt, ho, hs1⟩
  · rw [hpr] at hok
    simp only at hok
    subst hok
    rcases hfl : find_leaf s1 k with _ | ⟨leaf, s2⟩ <;>
      simp only [] at h <;> rw [hfl] at h
    · simp at h
    · simp only [] at h
      split at h
      · simp only [Option.some.injEq, Prod.mk.injEq] at h
        exact Or.inl h.1.symm
      · simp only [Option.some.injEq, Prod.mk.injEq] at h
        exact Or.inr (Or.inl h.1.symm)
  · rw [hpr] at hnm hs1
    simp only at hnm hs1
    subst hnm
    simp only [Option.some.injEq, Prod.mk.injEq] at h
    obtain ⟨he, hs⟩ := h
    subst he
    refine Or.inr (Or.inr ⟨rfl, hlt, ho, ?_⟩)
    rw [← hs, hs1]
    exact ⟨rfl, rfl, rfl, rfl, rfl, rfl, rfl, rfl, rfl, rfl⟩

/-- Witness for the amended C6 contract at the concrete failing run. -/
theorem C6_delete_error_contract_witness :
    Err.NOMEM = Err.OK ∨ Err.NOMEM = Err.NOTFOUND ∨
      (Err.NOMEM = Err.NOMEM ∧ stC6.path_length < stC6.depth ∧
        oracleNone stC6.allocCount = false ∧
        c6state.mem = stC6.mem ∧ c6state.root = stC6.root ∧ c6state.leaves = stC6.leaves ∧
        c6state.depth = stC6.depth ∧ c6state.num_recs = stC6.num_recs ∧
        c6state.num_blks = stC6.num_blks ∧ c6state.num_crsrs = stC6.num_crsrs ∧
        c6state.cursor_list = stC6.cursor_list ∧
        c6state.freeLog = stC6.freeLog ∧ c6state.allocLog = stC6.allocLog) :=
  C6_delete_error_contract oracleNone stC6 1000 Err.NOMEM c6state rfl

/-- Claim C7.  The claim states that deleting a cursor's key and then
inserting the same key clears the invalidated flag and makes the
cursor's get return the new record.  The code is wrong:
`insert_into_leaf` bumps every cursor with position at or after the
insertion point — including the invalidated cursor parked on that very
slot — and never clears the flag.  On the tree `{(5,50), (6,60)}` with a
cursor at key 5, after delete 5 and insert (5,55) the cursor sits at
position 1 still invalidated, its get returns not-found, although the
new record (5,55) is live at position 0. -/
theorem C7_reinsert_does_not_restore_cursor :
    (c7state.map fun t => t.cursor_list.headD junkCursor) = some ⟨1, 1, 0, false⟩ ∧
    ((chainDel 5 c7state).map fun t => t.cursor_list.headD junkCursor) = some ⟨1, 1, 0, true⟩ ∧
    (c7after.map fun t => t.cursor_list.headD junkCursor) = some ⟨1, 1, 1, true⟩ ∧
    (c7after.map fun t => get_record t (t.cursor_list.headD junkCursor)) =
      some (Err.NOTFOUND, none) ∧
    (c7after.map fun t => (leafKeys t t.root, get_value t t.root 0)) = some ([5, 6], 55) :=
  ⟨by decide, by decide, by decide, by decide, by decide⟩

/-- Claim C8.  The claim states that after the owning tree is destroyed
every cursor operation completes without touching the destroyed tree:
get-record returns not-found, get-tree returns null, free-cursor simply
releases the cursor.  The code is only right about get-tree: the tree
back pointer is nulled, but `get_record` never consults it and reads
the freed leaf (block 1 is in the free log) through the stale leaf
pointer, returning OK with the old record; and `free_cursor`
unconditionally decrements `b->num_crsrs` through the NULL tree
pointer, the modelled crash (`none`). -/
theorem C8_cursor_operations_after_tree_destroyed :
    (c8freed.map fun t => t.cursor_list.headD junkCursor) = some ⟨0, 1, 0, false⟩ ∧
    (c8freed.map fun t => get_record t (t.cursor_list.headD junkCursor)) =
      some (Err.OK, some (1, 10)) ∧
    (c8freed.map fun t => get_tree (t.cursor_list.headD junkCursor)) = some 0 ∧
    (c8freed.map fun t => (free_cursor t (t.cursor_list.headD junkCursor)).isSome) = some false ∧
    (c8freed.map fun t => t.freeLog) = some [1] :=
  ⟨by decide, by decide, by decide, by decide, by decide⟩

/-- Claim C10.  `next_record` is total exactly while the cursor's leaf
pointer is non-null: with a non-null leaf it always produces a result;
with a null leaf it dereferences NULL (modelled `none`); and whenever it
returns not-found (end of tree) it leaves the leaf pointer null, so the
immediately following call on that cursor crashes instead of returning
not-found again. -/
theorem C10_next_record_null_leaf_contract (s : BTState) (c : Cursor) :
    (c.leaf ≠ 0 → (next_record s c).isSome) ∧
    (c.leaf = 0 → next_record s c = none) ∧
    (∀ e c', next_record s c = some (e, c') → e = Err.NOTFOUND →
      c'.leaf = 0 ∧ next_record s c' = none) := by
  refine ⟨?_, ?_, ?_⟩
  · intro h
    unfold next_record
    rw [if_neg h]
    split <;> dsimp only <;> split <;> simp
  · intro h
    unfold next_record
    rw [if_pos h]
  · intro e c' hsome he
    subst he
    unfold next_record at hsome
    by_cases hc : c.leaf = 0
    · rw [if_pos hc] at hsome
      exact absurd hsome (by simp)
    · rw [if_neg hc] at hsome
      set c1 := if c.invalid = true then { c with invalid := false } else { c with pos := c.pos + 1 } with hc1
      by_cases hend : num_keys s c1.leaf ≤ c1.pos
      · rw [if_pos hend] at hsome
        simp only [Option.some.injEq, Prod.mk.injEq] at hsome
        obtain ⟨he2, hc2⟩ := hsome
        by_cases hl : next_leaf s c1.leaf ≠ 0
        · rw [if_pos hl] at he2
          exact absurd he2 (by simp)
        · push_neg at hl
          refine ⟨by rw [← hc2]; exact hl, ?_⟩
          rw [← hc2]
          simp [next_record, hl]
      · rw [if_neg hend] at hsome
        simp only [Option.some.injEq, Prod.mk.injEq] at hsome
        exact absurd hsome.1 (by simp)

/-- Witness for C10: on the one-record tree, advancing the cursor past
the end returns not-found with a null leaf, and the next call crashes. -/
theorem C10_next_record_null_leaf_contract_witness :
    (⟨1, 0, 0, false⟩ : Cursor).leaf = 0 ∧ next_record stC10 ⟨1, 0, 0, false⟩ = none :=
  (C10_next_record_null_leaf_contract stC10 ⟨1, 1, 0, false⟩).2.2 Err.NOTFOUND
    ⟨1, 0, 0, false⟩ (by decide) rfl

/-! ## Machinery for the split characterisation (claim C9) -/

lemma mem_setWord_same (s : BTState) (b i v w : Nat) :
    ((setWord s b i v).mem b).words w = if w = i then v else (s.mem b).words w := by
  simp [setWord, setBlk, Block.write]

lemma mem_setWord_other (s : BTState) (b i v b' : Nat) (h : b' ≠ b) :
    (setWord s b i v).mem b' = s.mem b' := by
  simp [setWord, setBlk, h]

lemma chSlotRead_write_newp (s : BTState) (parent newp a v t : Nat) (hpn : parent ≠ newp) :
    chSlotRead (setWord s newp (FIELD_0 + a) v) parent newp t =
      if t = a + 129 then v else chSlotRead s parent newp t := by
  unfold chSlotRead
  simp only [FIELD_0]
  by_cases ht : 129 ≤ t
  · rw [if_pos ht, mem_setWord_same]
    by_cases ha : t = a + 129
    · rw [if_pos (by omega : 256 + (t - 129) = 256 + a), if_pos ha]
    · rw [if_neg (by omega : ¬ 256 + (t - 129) = 256 + a), if_neg ha, if_pos ht]
  · rw [if_neg ht, mem_setWord_other s newp _ v parent hpn, if_neg (by omega), if_neg ht]

lemma chSlotRead_write_parent (s : BTState) (parent newp a v t : Nat) (hpn : parent ≠ newp)
    (ha128 : a ≤ 128) :
    chSlotRead (setWord s parent (FIELD_0 + a) v) parent newp t =
      if t = a then v else chSlotRead s parent newp t := by
  unfold chSlotRead
  simp only [FIELD_0]
  by_cases ht : 129 ≤ t
  · rw [if_pos ht, mem_setWord_other s parent _ v newp (Ne.symm hpn), if_neg (by omega), if_pos ht]
  · rw [if_neg ht, mem_setWord_same]
    by_cases ha : t = a
    · rw [if_pos (by omega : 256 + t = 256 + a), if_pos ha]
    · rw [if_neg (by omega : ¬ 256 + t = 256 + a), if_neg ha, if_neg ht]

set_option maxRecDepth 10000 in
/-- One write step of the child loop: writing combined entry `r - 1`
into the slot designated by `(dnp, j)` re-establishes the invariants at
`r - 1`. -/
lemma chWriteStep (parent newp pos newc : Nat) (hpn : parent ≠ newp) (P : Nat → Nat)
    (s : BTState) (dnp : Bool) (j r : Nat) (hr : 1 ≤ r)
    (h2 : ∀ t, r ≤ t → t ≤ 256 → chSlotRead s parent newp t = splitChC P pos newc t)
    (h4 : if 130 ≤ r then dnp = false ∧ j = r - 130 else dnp = true ∧ j = r - 1)
    (v : Nat) (hv : v = splitChC P pos newc (r - 1)) :
    (∀ t, r - 1 ≤ t → t ≤ 256 →
      chSlotRead (setWord s (if dnp then parent else newp) (FIELD_0 + j) v) parent newp t =
        splitChC P pos newc t) ∧
    (1 ≤ r - 1 →
      (if 130 ≤ r - 1 then
        (if j = 0 then true else dnp) = false ∧ (if j = 0 then LHALF else j - 1) = r - 1 - 130
       else
        (if j = 0 then true else dnp) = true ∧ (if j = 0 then LHALF else j - 1) = r - 1 - 1)) ∧
    (∀ u, u + 1 < r →
      ((setWord s (if dnp then parent else newp) (FIELD_0 + j) v).mem parent).words (FIELD_0 + u) =
        (s.mem parent).words (FIELD_0 + u)) := by
  by_cases h130 : 130 ≤ r
  · rw [if_pos h130] at h4
    obtain ⟨hdnp, hj⟩ := h4
    subst hdnp; subst hj
    simp only [Bool.false_eq_true, if_false]
    refine ⟨?_, ?_, ?_⟩
    · intro t htr ht
      rw [chSlotRead_write_newp s parent newp _ v t hpn]
      by_cases hteq : t = r - 130 + 129
      · rw [if_pos hteq, hv, hteq]
        have : r - 130 + 129 = r - 1 := by omega
        rw [this]
      · rw [if_neg hteq]
        exact h2 t (by omega) ht
    · intro h1
      by_cases hjz : r - 130 = 0
      · have h130eq : r = 130 := by omega
        subst h130eq
        norm_num [LHALF, ORDER]
      · have h1301 : 130 ≤ r - 1 := by omega
        simp only [if_neg hjz, if_pos h1301]
        constructor <;> trivial
    · intro u hu
      rw [mem_setWord_other s newp _ v parent hpn]
  · rw [if_neg h130] at h4
    obtain ⟨hdnp, hj⟩ := h4
    subst hdnp; subst hj
    simp only [if_true]
    refine ⟨?_, ?_, ?_⟩
    · intro t htr ht
      rw [chSlotRead_write_parent s parent newp _ v t hpn (by omega)]
      by_cases hteq : t = r - 1
      · rw [if_pos hteq, hv, hteq]
      · rw [if_neg hteq]
        exact h2 t (by omega) ht
    · intro h1
      by_cases hjz : r - 1 = 0
      · omega
      · have hn130 : ¬ 130 ≤ r - 1 := by omega
        simp only [if_neg hjz, if_neg hn130]
        constructor <;> trivial
    · intro u hu
      rw [mem_setWord_same]
      rw [if_neg (show ¬ FIELD_0 + u = FIELD_0 + (r - 1) by simp only [FIELD_0]; omega)]



set_option maxRecDepth 10000 in
lemma childLoop_spec (parent newp pos newc : Nat) (hpn : parent ≠ newp) (hpos : pos ≤ 255)
    (P : Nat → Nat) :
    ∀ f s dnp j, f ≤ 256 →
      (∀ t, chRem pos f ≤ t → t ≤ 256 → chSlotRead s parent newp t = splitChC P pos newc t) →
      (∀ u, u < f → (s.mem parent).words (FIELD_0 + u) = P u) →
      (1 ≤ chRem pos f →
        (if 130 ≤ chRem pos f then dnp = false ∧ j = chRem pos f - 130
         else dnp = true ∧ j = chRem pos f - 1)) →
      ∀ t, t ≤ 256 →
        chSlotRead (splitIndexChildLoop parent newp pos newc s dnp j f) parent newp t =
          splitChC P pos newc t := by
  intro f
  induction f with
  | zero =>
    intro s dnp j _ h2 _ _ t ht
    have h0 : chRem pos 0 = 0 := by unfold chRem; simp
    exact h2 t (by omega) ht
  | succ f ih =>
    intro s dnp j hf h2 h3 h4 t ht
    unfold splitIndexChildLoop
    by_cases hbr : f < pos ∧ f < LHALF + 1
    · rw [if_pos hbr]
      have hrf : chRem pos (f + 1) = f + 1 := by unfold chRem; split_ifs <;> omega
      by_cases htr : f + 1 ≤ t
      · exact h2 t (by rw [hrf]; omega) ht
      · have hL : f < 129 := by
          have := hbr.2
          unfold LHALF ORDER at this
          omega
        unfold chSlotRead
        rw [if_neg (by omega : ¬ 129 ≤ t), h3 t (by omega)]
        unfold splitChC
        rw [if_pos (by omega : t ≤ pos)]
    · rw [if_neg hbr]
      have hr1 : 1 ≤ chRem pos (f + 1) := by unfold chRem; split_ifs <;> omega
      have hvC : splitChC P pos newc (chRem pos (f + 1) - 1) = P f := by
        unfold chRem splitChC
        by_cases hfpos : f ≤ pos
        · rw [if_pos (by omega : f + 1 ≤ pos + 1)]
          simp only [Nat.add_sub_cancel]
          rw [if_pos hfpos]
        · rw [if_neg (by omega : ¬ f + 1 ≤ pos + 1)]
          have : f + 1 + 1 - 1 = f + 1 := by omega
          rw [this, if_neg (by omega : ¬ f + 1 ≤ pos),
            if_neg (by omega : ¬ f + 1 = pos + 1)]
          simp
      have hval : (s.mem parent).words (FIELD_0 + f) =
          splitChC P pos newc (chRem pos (f + 1) - 1) := by
        rw [h3 f (by omega), hvC]
      obtain ⟨h2', h4', h3p⟩ :=
        chWriteStep parent newp pos newc hpn P s dnp j (chRem pos (f + 1)) hr1 h2 (h4 hr1)
          ((s.mem parent).words (FIELD_0 + f)) hval
      by_cases hex : f = pos + 1
      · rw [if_pos hex]
        have hrel : chRem pos (f + 1) - 1 = pos + 2 := by unfold chRem; split_ifs <;> omega
        have hrel2 : chRem pos f = pos + 1 := by unfold chRem; split_ifs <;> omega
        have hr1' : 1 ≤ chRem pos (f + 1) - 1 := by rw [hrel]; omega
        have hvC2 : (newc : Nat) = splitChC P pos newc (chRem pos (f + 1) - 1 - 1) := by
          rw [hrel]
          unfold splitChC
          rw [if_neg (by omega : ¬ pos + 2 - 1 ≤ pos), if_pos (by omega : pos + 2 - 1 = pos + 1)]
        obtain ⟨h2'', h4'', h3p2⟩ :=
          chWriteStep parent newp pos newc hpn P _ _ _ (chRem pos (f + 1) - 1) hr1' h2'
            (h4' hr1') newc hvC2
        refine ih _ _ _ (by omega) ?_ ?_ ?_ t ht
        · intro t2 ht2 ht256
          exact h2'' t2 (by rw [hrel]; rw [hrel2] at ht2; omega) ht256
        · intro u hu
          rw [h3p2 u (by rw [hrel]; omega), h3p u (by rw [hrel] at hr1'; omega)]
          exact h3 u (by omega)
        · intro h1
          have heq2 : chRem pos (f + 1) - 1 - 1 = chRem pos f := by rw [hrel, hrel2]; omega
          rw [heq2] at h4''
          exact h4'' h1
      · rw [if_neg hex]
        have hrel : chRem pos (f + 1) - 1 = chRem pos f := by unfold chRem; split_ifs <;> omega
        refine ih _ _ _ (by omega) ?_ ?_ ?_ t ht
        · intro t2 ht2 ht256
          exact h2' t2 (by rw [hrel]; exact ht2) ht256
        · intro u hu
          rw [h3p u (by unfold chRem; split_ifs <;> omega)]
          exact h3 u (by omega)
        · intro h1
          rw [hrel] at h4'
          exact h4' h1

end BPlus
